import Mathlib

/-!
Verification of the position lifecycle and risk-control engine of a Solana
momentum trading bot.  The TypeScript source (types.ts, riskManager.ts,
positionManager.ts, rugcheck.ts, index.ts) is embedded shallowly:
JavaScript numbers become rationals, in-place mutation becomes explicit
state passing, and the values produced by awaited external calls (price
feed, swap execution, safety screener API) become explicit parameters of
the embedded functions.  Identity and audit strings (token addresses,
symbols, timestamps, transaction signatures) never enter control flow and
are reduced to the numeric id used for position lookup.
-/

namespace TradingBot

/-- types.ts: `status: 'open' | 'closed'` of a `Position`. -/
inductive PosStatus
  | opened
  | closed
deriving DecidableEq

/-- riskManager.ts / positionManager.ts: exit reasons
`'stop_loss' | 'take_profit' | 'manual'`. -/
inductive ExitReason
  | stop_loss
  | take_profit
  | manual
deriving DecidableEq

/-- riskManager.ts `checkExit` result: `'stop_loss' | 'take_profit' | 'hold'`. -/
inductive ExitAction
  | stop_loss
  | take_profit
  | hold
deriving DecidableEq

/-- types.ts `RiskConfig` (lines 45-52). -/
structure RiskConfig where
  initialCapitalSol : ℚ
  maxPositionSizePct : ℚ
  maxPositions : ℕ
  stopLossPct : ℚ
  takeProfitPct : ℚ
  portfolioStopLossSol : ℚ
deriving DecidableEq

/-- riskManager.ts `DEFAULT_RISK_CONFIG` (lines 7-14). -/
def DEFAULT_RISK_CONFIG : RiskConfig :=
  { initialCapitalSol := 84/100
    maxPositionSizePct := 1/10
    maxPositions := 3
    stopLossPct := 15/100
    takeProfitPct := 30/100
    portfolioStopLossSol := 34/100 }

/-- types.ts `Position` (lines 29-43).  `id` stands for the uuid string;
`tokenAddress`, `tokenSymbol`, `entryTime` and `exitTime` are audit-only
strings/dates and are omitted. -/
structure Position where
  id : ℕ
  entryPrice : ℚ
  entryAmount : ℚ
  tokenAmount : ℚ
  stopLoss : ℚ
  takeProfit : ℚ
  highestPrice : ℚ
  status : PosStatus
  exitPrice : Option ℚ
  pnlSol : Option ℚ
deriving DecidableEq

/-- types.ts `BotState` (lines 54-61). -/
structure BotState where
  capitalSol : ℚ
  openPositions : List Position
  closedPositions : List Position
  totalPnlSol : ℚ
  isRunning : Bool
  isStopped : Bool
deriving DecidableEq

/-- types.ts `Signal` (lines 20-27): of all its fields only `token.price`
flows into the embedded entry logic; the momentum/sentiment scores are
consumed by the (out-of-scope) signal evaluation loop and logging. -/
structure Signal where
  tokenPrice : ℚ
deriving DecidableEq

/-- jupiter.ts `SwapResult` (lines 18-24).  `txSignature`/`error` are
logging-only strings; `inputAmount` is never read back by the core. -/
structure SwapResult where
  success : Bool
  outputAmount : ℚ
deriving DecidableEq

namespace RiskManager

/-- Reasons produced by `canEnter` (riskManager.ts lines 22-33); the
Japanese reason strings are represented by this enumeration. -/
inductive DenyReason
  | portfolioStopped
  | maxPositionsReached
  | portfolioLoss
deriving DecidableEq

/-- Result record `{ allowed: boolean; reason?: string }` of `canEnter`. -/
structure EnterCheck where
  allowed : Bool
  reason : Option DenyReason
deriving DecidableEq

/-- riskManager.ts `canEnter` (lines 22-33). -/
def canEnter (cfg : RiskConfig) (s : BotState) : EnterCheck :=
  if s.isStopped then
    { allowed := false, reason := some .portfolioStopped }
  else if cfg.maxPositions ≤ s.openPositions.length then
    { allowed := false, reason := some .maxPositionsReached }
  else if s.totalPnlSol ≤ -cfg.portfolioStopLossSol then
    { allowed := false, reason := some .portfolioLoss }
  else
    { allowed := true, reason := none }

/-- riskManager.ts `calcPositionSize` (lines 38-41):
`Math.round(size * 10000) / 10000`.  JavaScript `Math.round` rounds
half-way cases toward positive infinity, which is Mathlib's `round`. -/
def calcPositionSize (cfg : RiskConfig) (currentCapital : ℚ) : ℚ :=
  ((round (currentCapital * cfg.maxPositionSizePct * 10000) : ℤ) : ℚ) / 10000

/-- riskManager.ts `calcStopLoss` (lines 46-48). -/
def calcStopLoss (cfg : RiskConfig) (entryPrice : ℚ) : ℚ :=
  entryPrice * (1 - cfg.stopLossPct)

/-- riskManager.ts `calcTakeProfit` (lines 53-55). -/
def calcTakeProfit (cfg : RiskConfig) (entryPrice : ℚ) : ℚ :=
  entryPrice * (1 + cfg.takeProfitPct)

/-- riskManager.ts `checkExit` (lines 66-74): the active revision, which
tests the fixed take-profit first and the (possibly ratcheted) trailing
stop second. -/
def checkExit (position : Position) (currentPrice : ℚ) : ExitAction :=
  if position.takeProfit ≤ currentPrice then .take_profit
  else if currentPrice ≤ position.stopLoss then .stop_loss
  else .hold

/-- The superseded earlier revision of `checkExit` (second copy of
riskManager.ts, lines 183-187 of the concatenated source), which tested
the stop-loss first.  It is not the revision the PositionManager runs
against: that revision of the class lacks `updateTrailingStop`, which
`monitorPositions` calls. -/
def checkExitLegacy (position : Position) (currentPrice : ℚ) : ExitAction :=
  if currentPrice ≤ position.stopLoss then .stop_loss
  else if position.takeProfit ≤ currentPrice then .take_profit
  else .hold

/-- riskManager.ts `updateTrailingStop` (lines 81-98).  The TypeScript
mutates `position` in place and returns a boolean; here the updated
position is returned alongside it. -/
def updateTrailingStop (cfg : RiskConfig) (position : Position)
    (currentPrice : ℚ) : Bool × Position :=
  if currentPrice ≤ position.highestPrice then (false, position)
  else
    let trailingSL := currentPrice * (1 - cfg.stopLossPct)
    let initialSL := position.entryPrice * (1 - cfg.stopLossPct)
    let newSL := max trailingSL initialSL
    if position.stopLoss < newSL then
      (true, { position with highestPrice := currentPrice, stopLoss := newSL })
    else
      (false, { position with highestPrice := currentPrice })

/-- riskManager.ts `shouldStopPortfolio` (lines 103-105). -/
def shouldStopPortfolio (cfg : RiskConfig) (s : BotState) : Bool :=
  s.totalPnlSol ≤ -cfg.portfolioStopLossSol

end RiskManager

/-- rugcheck.ts: risk level `'info' | 'warn' | 'danger'` (line 34). -/
inductive RiskLevel
  | info
  | warn
  | danger
deriving DecidableEq

/-- rugcheck.ts `RugRisk` (lines 32-37).  `matchesCriticalName` abstracts
the case-insensitive substring test of the risk's name against
`CRITICAL_RISK_NAMES` (lines 71-75); `description` is logging-only. -/
structure RugRisk where
  level : RiskLevel
  matchesCriticalName : Bool
  score : ℤ
deriving DecidableEq

/-- The data the RugCheck API call yields when it succeeds, after the
`?? 999` / `?? 0` defaulting of rugcheck.ts lines 60-67. -/
structure RugApiReport where
  score : ℤ
  risks : List RugRisk
deriving DecidableEq

/-- The reject reasons of rugcheck.ts lines 80-89, standing for the
Japanese reason strings. -/
inductive RugRejectReason
  | scoreTooHigh
  | criticalRisk
  | tooManyDangerRisks
deriving DecidableEq

/-- rugcheck.ts `RugCheckResult` (lines 25-30); the `risks` list is
carried through but only `safe` and `score` flow into entry control. -/
structure RugCheckResult where
  safe : Bool
  score : ℤ
  rejectReason : Option RugRejectReason
deriving DecidableEq

/-- rugcheck.ts `MAX_SAFE_SCORE` (line 12). -/
def MAX_SAFE_SCORE : ℤ := 500

/-- rugcheck.ts `RugChecker.check` (lines 47-106) as a function of the
API call's outcome: `none` is the catch branch (lines 95-105, request
failed), `some data` the parsed successful response.  The 10-minute
result cache (lines 48-52) only replays a previously computed result and
is omitted. -/
def rugCheck : Option RugApiReport → RugCheckResult
  | none =>
    { safe := true, score := -1, rejectReason := none }
  | some data =>
    let dangerRisks := data.risks.filter (fun r => r.level == RiskLevel.danger)
    let criticalHit := dangerRisks.find? (fun r => r.matchesCriticalName)
    if MAX_SAFE_SCORE < data.score then
      { safe := false, score := data.score, rejectReason := some .scoreTooHigh }
    else if criticalHit.isSome then
      { safe := false, score := data.score, rejectReason := some .criticalRisk }
    else if 2 ≤ dangerRisks.length then
      { safe := false, score := data.score, rejectReason := some .tooManyDangerRisks }
    else
      { safe := true, score := data.score, rejectReason := none }

namespace PositionManager

/-- positionManager.ts `loadState` (lines 243-250): the fresh-state branch
taken when no persisted state file exists. -/
def initState (initialCapital : ℚ) : BotState :=
  { capitalSol := initialCapital
    openPositions := []
    closedPositions := []
    totalPnlSol := 0
    isRunning := false
    isStopped := false }

/-- positionManager.ts `enter` (lines 40-122).  The awaited collaborator
results (`rugChecker.check`, `trader.buy`) and the generated uuid are
passed in as `rug`, `buyResult` and `freshId`; the pair returned is
(the TypeScript return value, the state after the call). -/
def enter (cfg : RiskConfig) (s : BotState) (signal : Signal)
    (rug : RugCheckResult) (buyResult : SwapResult) (freshId : ℕ) :
    Option Position × BotState :=
  if !(RiskManager.canEnter cfg s).allowed then (none, s)
  else if !rug.safe then (none, s)
  else
    let positionSizeSol := RiskManager.calcPositionSize cfg s.capitalSol
    if positionSizeSol < 1/1000 then (none, s)
    else if !buyResult.success then (none, s)
    else
      let entryPrice := signal.tokenPrice
      let position : Position :=
        { id := freshId
          entryPrice := entryPrice
          entryAmount := positionSizeSol
          tokenAmount := buyResult.outputAmount
          stopLoss := RiskManager.calcStopLoss cfg entryPrice
          takeProfit := RiskManager.calcTakeProfit cfg entryPrice
          highestPrice := entryPrice
          status := .opened
          exitPrice := none
          pnlSol := none }
      (some position,
        { s with
          openPositions := s.openPositions ++ [position]
          capitalSol := s.capitalSol - positionSizeSol })

/-- positionManager.ts `exit` (lines 127-188).  The awaited `trader.sell`
result is the parameter `sellResult`; `reason` only feeds the audit label.
`findIndex` + `splice` on the first position whose id matches becomes
`find?` + `eraseP`.  On sell failure the close is booked at the fixed
15% haircut fallback (lines 136-143). -/
def exit (cfg : RiskConfig) (s : BotState) (positionId : ℕ)
    (_reason : ExitReason) (sellResult : SwapResult) : BotState :=
  match s.openPositions.find? (fun p => p.id == positionId) with
  | none => s
  | some position =>
    let receivedSol :=
      if sellResult.success then sellResult.outputAmount / 1000000000
      else position.entryAmount * (1 - 15/100)
    let pnlSol := receivedSol - position.entryAmount
    let exitPrice :=
      if sellResult.success then (receivedSol / position.tokenAmount) * 1000000000
      else position.stopLoss
    let closedPosition : Position :=
      { position with
        exitPrice := some exitPrice
        pnlSol := some pnlSol
        status := .closed }
    let s1 : BotState :=
      { s with
        openPositions := s.openPositions.eraseP (fun p => p.id == positionId)
        closedPositions := s.closedPositions ++ [closedPosition]
        capitalSol := s.capitalSol + receivedSol
        totalPnlSol := s.totalPnlSol + pnlSol }
    if RiskManager.shouldStopPortfolio cfg s1 then
      { s1 with isStopped := true }
    else s1

/-- The first half of one iteration of positionManager.ts
`monitorPositions` (lines 200-207): the in-place `updateTrailingStop`
mutation of the iterated position, as a state transformer (the state is
persisted at this point when the stop changed, line 206). -/
def applyTrailingStop (cfg : RiskConfig) (s : BotState) (posId : ℕ)
    (currentPrice : ℚ) : BotState :=
  { s with
    openPositions :=
      s.openPositions.map fun p =>
        if p.id == posId then (RiskManager.updateTrailingStop cfg p currentPrice).2
        else p }

/-- One iteration of the loop body of positionManager.ts
`monitorPositions` (lines 195-223) for the position `posId` of the
snapshot: `price` is the awaited `getTokenPriceInSol` result (skip on
`none`, line 198), then the trailing-stop update, then `checkExit`, and
`exit` when it signals. -/
def monitorStep (cfg : RiskConfig) (s : BotState) (posId : ℕ)
    (price : Option ℚ) (sellResult : SwapResult) : BotState :=
  match price with
  | none => s
  | some currentPrice =>
    let s1 := applyTrailingStop cfg s posId currentPrice
    match s1.openPositions.find? (fun p => p.id == posId) with
    | none => s1
    | some pos =>
      match RiskManager.checkExit pos currentPrice with
      | .stop_loss => exit cfg s1 posId .stop_loss sellResult
      | .take_profit => exit cfg s1 posId .take_profit sellResult
      | .hold => s1

/-- positionManager.ts `monitorPositions` (lines 194-224): iterate over a
snapshot `[...openPositions]` taken at call time; the oracles `price` and
`sell` give each position's awaited collaborator results. -/
def monitorPositions (cfg : RiskConfig) (s : BotState)
    (price : ℕ → Option ℚ) (sell : ℕ → SwapResult) : BotState :=
  (s.openPositions.map Position.id).foldl
    (fun st pid => monitorStep cfg st pid (price pid) (sell pid)) s

end PositionManager

/-- index.ts lines 169-176: one firing of the 10-second position-monitor
timer.  The callback returns immediately when the portfolio halt flag is
set and otherwise runs `monitorPositions`. -/
def monitorTick (cfg : RiskConfig) (s : BotState)
    (price : ℕ → Option ℚ) (sell : ℕ → SwapResult) : BotState :=
  if s.isStopped then s else PositionManager.monitorPositions cfg s price sell

/-- The entry amounts currently committed to open positions
(spec section 3: sum of committed-capital of open positions). -/
def committedCapital (s : BotState) : ℚ :=
  (s.openPositions.map Position.entryAmount).sum

/-- Ledger states reachable from the fresh initial state by `enter` and
`exit` transitions with arbitrary collaborator outcomes. -/
inductive Reachable (cfg : RiskConfig) (initialCapital : ℚ) : BotState → Prop
  | init : Reachable cfg initialCapital (PositionManager.initState initialCapital)
  | enterStep (s : BotState) (signal : Signal) (rug : RugCheckResult)
      (buyResult : SwapResult) (freshId : ℕ) :
      Reachable cfg initialCapital s →
      Reachable cfg initialCapital
        (PositionManager.enter cfg s signal rug buyResult freshId).2
  | exitStep (s : BotState) (positionId : ℕ) (reason : ExitReason)
      (sellResult : SwapResult) :
      Reachable cfg initialCapital s →
      Reachable cfg initialCapital
        (PositionManager.exit cfg s positionId reason sellResult)

/-- A finite monitoring history of a single position: the positions
reached by folding `updateTrailingStop` over a price sequence. -/
def runTrailingStops (cfg : RiskConfig) (p : Position) (prices : List ℚ) :
    Position :=
  prices.foldl (fun q c => (RiskManager.updateTrailingStop cfg q c).2) p

namespace Claims

/-- The trailing-stop update as the specification words it (spec section
4.1): no-op returning false at or below the recorded high; otherwise
record the new high, form
`candidateStop = max (currentPrice*(1-f)) (entryPrice*(1-f))`, and raise
the stop to the candidate returning true exactly when the candidate
exceeds the current stop.  Compared against the source-derived
`RiskManager.updateTrailingStop`. -/
def updateTrailingStopClaim (cfg : RiskConfig) (p : Position) (c : ℚ) :
    Bool × Position :=
  if c ≤ p.highestPrice then (false, p)
  else
    let candidateStop :=
      max (c * (1 - cfg.stopLossPct)) (p.entryPrice * (1 - cfg.stopLossPct))
    if candidateStop > p.stopLoss then
      (true, { p with highestPrice := c, stopLoss := candidateStop })
    else
      (false, { p with highestPrice := c })

/-- The exit check as the specification words it (spec section 4.1):
take-profit against the fixed target first, the stop second, else hold.
Compared against the source-derived `RiskManager.checkExit`. -/
def checkExitClaim (p : Position) (c : ℚ) : ExitAction :=
  if c ≥ p.takeProfit then .take_profit
  else if c ≤ p.stopLoss then .stop_loss
  else .hold

end Claims

/-- The spec-section-8 scenario position: entry at price 1.00 under the
default configuration (15% stop band, 30% target), committed capital
0.084 SOL, high-water mark at the entry price. -/
def scenarioPos : Position :=
  { id := 1
    entryPrice := 1
    entryAmount := 21/250
    tokenAmount := 100
    stopLoss := 17/20
    takeProfit := 13/10
    highestPrice := 1
    status := .opened
    exitPrice := none
    pnlSol := none }

/-- A ledger holding only `scenarioPos`: the state after entering it from
the default initial capital 0.84 SOL. -/
def scenarioState : BotState :=
  { capitalSol := 189/250
    openPositions := [scenarioPos]
    closedPositions := []
    totalPnlSol := 0
    isRunning := true
    isStopped := false }

/-- `scenarioState` after the portfolio circuit breaker has fired. -/
def haltedScenarioState : BotState :=
  { scenarioState with isStopped := true }

/-- A successful buy execution delivering 1000000 raw token units. -/
def buyOk : SwapResult := { success := true, outputAmount := 1000000 }

/-- A successful sell execution delivering 200000000 lamports (0.2 SOL). -/
def sellOk : SwapResult := { success := true, outputAmount := 200000000 }

/-- A failed swap execution. -/
def swapFail : SwapResult := { success := false, outputAmount := 0 }

/-- An affirmative safety verdict from a successful screener response. -/
def rugSafe : RugCheckResult := { safe := true, score := 100, rejectReason := none }

/-- A candidate signal at token price 1.00. -/
def sig1 : Signal := { tokenPrice := 1 }

/-! Helper lemmas about the trailing-stop ratchet. -/

theorem updateTrailingStop_id (cfg : RiskConfig) (p : Position) (c : ℚ) :
    ((RiskManager.updateTrailingStop cfg p c).2).id = p.id := by
  unfold RiskManager.updateTrailingStop
  split
  · rfl
  · dsimp only
    split <;> rfl

theorem updateTrailingStop_entryPrice (cfg : RiskConfig) (p : Position) (c : ℚ) :
    ((RiskManager.updateTrailingStop cfg p c).2).entryPrice = p.entryPrice := by
  unfold RiskManager.updateTrailingStop
  split
  · rfl
  · dsimp only
    split <;> rfl

theorem updateTrailingStop_takeProfit (cfg : RiskConfig) (p : Position) (c : ℚ) :
    ((RiskManager.updateTrailingStop cfg p c).2).takeProfit = p.takeProfit := by
  unfold RiskManager.updateTrailingStop
  split
  · rfl
  · dsimp only
    split <;> rfl

theorem updateTrailingStop_highest_mono (cfg : RiskConfig) (p : Position) (c : ℚ) :
    p.highestPrice ≤ ((RiskManager.updateTrailingStop cfg p c).2).highestPrice := by
  unfold RiskManager.updateTrailingStop
  split
  · exact le_refl _
  · next h =>
    have hc : p.highestPrice ≤ c := le_of_lt (lt_of_not_le h)
    dsimp only
    split
    · exact hc
    · exact hc

theorem updateTrailingStop_stopLoss_mono (cfg : RiskConfig) (p : Position) (c : ℚ) :
    p.stopLoss ≤ ((RiskManager.updateTrailingStop cfg p c).2).stopLoss := by
  unfold RiskManager.updateTrailingStop
  split
  · exact le_refl _
  · dsimp only
    split
    · next h2 => exact le_of_lt h2
    · exact le_refl _

theorem updateTrailingStop_stopLoss_floor (cfg : RiskConfig) (p : Position)
    (c : ℚ) (h : p.entryPrice * (1 - cfg.stopLossPct) ≤ p.stopLoss) :
    p.entryPrice * (1 - cfg.stopLossPct)
      ≤ ((RiskManager.updateTrailingStop cfg p c).2).stopLoss := by
  unfold RiskManager.updateTrailingStop
  split
  · exact h
  · dsimp only
    split
    · exact le_max_right _ _
    · exact h

theorem runTrailingStops_nil (cfg : RiskConfig) (p : Position) :
    runTrailingStops cfg p [] = p := rfl

theorem runTrailingStops_cons (cfg : RiskConfig) (p : Position) (c : ℚ)
    (t : List ℚ) :
    runTrailingStops cfg p (c :: t)
      = runTrailingStops cfg (RiskManager.updateTrailingStop cfg p c).2 t := rfl

theorem runTrailingStops_append (cfg : RiskConfig) (p : Position)
    (l1 l2 : List ℚ) :
    runTrailingStops cfg p (l1 ++ l2)
      = runTrailingStops cfg (runTrailingStops cfg p l1) l2 :=
  List.foldl_append _ _ _ _

theorem runTrailingStops_entryPrice (cfg : RiskConfig) (prices : List ℚ) :
    ∀ p : Position, (runTrailingStops cfg p prices).entryPrice = p.entryPrice := by
  induction prices with
  | nil => intro p; rfl
  | cons c t ih =>
    intro p
    rw [runTrailingStops_cons, ih, updateTrailingStop_entryPrice]

theorem runTrailingStops_highest_mono (cfg : RiskConfig) (prices : List ℚ) :
    ∀ p : Position,
      p.highestPrice ≤ (runTrailingStops cfg p prices).highestPrice := by
  induction prices with
  | nil => intro p; exact le_refl _
  | cons c t ih =>
    intro p
    rw [runTrailingStops_cons]
    exact le_trans (updateTrailingStop_highest_mono cfg p c) (ih _)

theorem runTrailingStops_stopLoss_mono (cfg : RiskConfig) (prices : List ℚ) :
    ∀ p : Position, p.stopLoss ≤ (runTrailingStops cfg p prices).stopLoss := by
  induction prices with
  | nil => intro p; exact le_refl _
  | cons c t ih =>
    intro p
    rw [runTrailingStops_cons]
    exact le_trans (updateTrailingStop_stopLoss_mono cfg p c) (ih _)

theorem runTrailingStops_stopLoss_floor (cfg : RiskConfig) (prices : List ℚ) :
    ∀ p : Position, p.entryPrice * (1 - cfg.stopLossPct) ≤ p.stopLoss →
      p.entryPrice * (1 - cfg.stopLossPct)
        ≤ (runTrailingStops cfg p prices).stopLoss := by
  induction prices with
  | nil => intro p h; exact h
  | cons c t ih =>
    intro p h
    rw [runTrailingStops_cons]
    have h1 := ih (RiskManager.updateTrailingStop cfg p c).2
    rw [updateTrailingStop_entryPrice] at h1
    exact h1 (updateTrailingStop_stopLoss_floor cfg p c h)

/-- C1: `updateTrailingStop(p, c)` is a no-op returning false when
`c ≤ p.highestPrice`; otherwise it sets the high to `c`, computes
`candidateStop = max (c*(1-f)) (entryPrice*(1-f))`, and raises the stop
to the candidate returning true exactly when the candidate exceeds the
current stop, returning false otherwise.  In particular, with entry price
1.00 and stop fraction 0.15, a rise to 1.20 moves the stop to 1.02, and a
later fall to 1.10 leaves both the high and the stop unchanged. -/
theorem updateTrailingStop_matches_claim :
    (∀ (cfg : RiskConfig) (p : Position) (c : ℚ),
      RiskManager.updateTrailingStop cfg p c
        = Claims.updateTrailingStopClaim cfg p c) ∧
    RiskManager.updateTrailingStop DEFAULT_RISK_CONFIG scenarioPos (6/5)
      = (true, { scenarioPos with highestPrice := 6/5, stopLoss := 51/50 }) ∧
    RiskManager.updateTrailingStop DEFAULT_RISK_CONFIG
        { scenarioPos with highestPrice := 6/5, stopLoss := 51/50 } (11/10)
      = (false, { scenarioPos with highestPrice := 6/5, stopLoss := 51/50 }) := by
  refine ⟨fun cfg p c => rfl, ?_, ?_⟩
  · norm_num [RiskManager.updateTrailingStop, DEFAULT_RISK_CONFIG, scenarioPos]
  · norm_num [RiskManager.updateTrailingStop, DEFAULT_RISK_CONFIG, scenarioPos]

/-- C2: from initialization at entry (high-water mark at the entry price,
stop at `entryPrice*(1-f)`), over any finite sequence of trailing-stop
updates with arbitrary prices, the high-water mark and the stop are
monotonically non-decreasing across the sequence, and after every call
the stop stays at or above `entryPrice*(1-f)`. -/
theorem trailing_ratchet_invariant (cfg : RiskConfig) (p : Position)
    (hh : p.highestPrice = p.entryPrice)
    (hs : p.stopLoss = p.entryPrice * (1 - cfg.stopLossPct))
    (l1 l2 : List ℚ) :
    (runTrailingStops cfg p l1).highestPrice
        ≤ (runTrailingStops cfg p (l1 ++ l2)).highestPrice ∧
    (runTrailingStops cfg p l1).stopLoss
        ≤ (runTrailingStops cfg p (l1 ++ l2)).stopLoss ∧
    p.entryPrice * (1 - cfg.stopLossPct)
        ≤ (runTrailingStops cfg p (l1 ++ l2)).stopLoss := by
  rw [runTrailingStops_append]
  refine ⟨runTrailingStops_highest_mono cfg l2 _,
          runTrailingStops_stopLoss_mono cfg l2 _, ?_⟩
  have h1 : p.entryPrice * (1 - cfg.stopLossPct)
      ≤ (runTrailingStops cfg p l1).stopLoss :=
    runTrailingStops_stopLoss_floor cfg l1 p (le_of_eq hs.symm)
  have h2 := runTrailingStops_stopLoss_floor cfg l2 (runTrailingStops cfg p l1)
  rw [runTrailingStops_entryPrice] at h2
  exact h2 h1

/-- Witness for C2 at the spec scenario: entry at 1.00 under the default
configuration, price sequence 1.20 then 1.10. -/
theorem trailing_ratchet_invariant_witness :
    (runTrailingStops DEFAULT_RISK_CONFIG scenarioPos [6/5]).highestPrice
        ≤ (runTrailingStops DEFAULT_RISK_CONFIG scenarioPos
            ([6/5] ++ [11/10])).highestPrice ∧
    (runTrailingStops DEFAULT_RISK_CONFIG scenarioPos [6/5]).stopLoss
        ≤ (runTrailingStops DEFAULT_RISK_CONFIG scenarioPos
            ([6/5] ++ [11/10])).stopLoss ∧
    scenarioPos.entryPrice * (1 - DEFAULT_RISK_CONFIG.stopLossPct)
        ≤ (runTrailingStops DEFAULT_RISK_CONFIG scenarioPos
            ([6/5] ++ [11/10])).stopLoss :=
  trailing_ratchet_invariant DEFAULT_RISK_CONFIG scenarioPos
    (by norm_num [scenarioPos])
    (by norm_num [scenarioPos, DEFAULT_RISK_CONFIG])
    [6/5] [11/10]

/-- C4: `checkExit` evaluates the fixed take-profit threshold first and
the stop second: take-profit when `price ≥ takeProfit`, else stop-loss
when `price ≤ stopLoss`, else hold; on an input satisfying both
thresholds at once the result is take-profit. -/
theorem checkExit_takeProfit_precedence :
    (∀ (p : Position) (c : ℚ),
      RiskManager.checkExit p c = Claims.checkExitClaim p c) ∧
    RiskManager.checkExit
        { scenarioPos with stopLoss := 2, takeProfit := 1 } (3/2)
      = .take_profit ∧
    ({ scenarioPos with stopLoss := 2, takeProfit := 1 } : Position).takeProfit
      ≤ 3/2 ∧
    (3/2 : ℚ) ≤ ({ scenarioPos with stopLoss := 2, takeProfit := 1 } : Position).stopLoss := by
  refine ⟨fun p c => rfl, ?_, ?_, ?_⟩
  · norm_num [RiskManager.checkExit, scenarioPos]
  · norm_num [scenarioPos]
  · norm_num [scenarioPos]

/-- C5: whenever `enter` fails at any of its four gates — admission
denied, safety verdict not affirmative, computed size below the 0.001
dust threshold, or buy execution unsuccessful — it returns no position
and the ledger state is exactly the state before the call. -/
theorem enter_gate_failure_no_mutation (cfg : RiskConfig) (s : BotState)
    (signal : Signal) (rug : RugCheckResult) (buyResult : SwapResult)
    (freshId : ℕ)
    (h : (RiskManager.canEnter cfg s).allowed = false ∨ rug.safe = false ∨
      RiskManager.calcPositionSize cfg s.capitalSol < 1/1000 ∨
      buyResult.success = false) :
    PositionManager.enter cfg s signal rug buyResult freshId = (none, s) := by
  unfold PositionManager.enter
  split
  · rfl
  · next h1 =>
    split
    · rfl
    · next h2 =>
      dsimp only
      split
      · rfl
      · next h3 =>
        split
        · rfl
        · next h4 =>
          exfalso
          rcases h with h | h | h | h
          · simp [h] at h1
          · simp [h] at h2
          · exact h3 h
          · simp [h] at h4

/-- Witness for C5: entering on a halted ledger returns no position and
leaves the state untouched. -/
theorem enter_gate_failure_no_mutation_witness :
    PositionManager.enter DEFAULT_RISK_CONFIG haltedScenarioState sig1
        rugSafe buyOk 2
      = (none, haltedScenarioState) :=
  enter_gate_failure_no_mutation _ _ _ _ _ _
    (Or.inl (by simp [RiskManager.canEnter, haltedScenarioState, scenarioState]))

/-- C6: `exit` on an id not present in the open set (in particular an id
whose position is already closed) performs no mutation at all. -/
theorem exit_unknown_id_noop (cfg : RiskConfig) (s : BotState)
    (positionId : ℕ) (reason : ExitReason) (sellResult : SwapResult)
    (h : ∀ p ∈ s.openPositions, p.id ≠ positionId) :
    PositionManager.exit cfg s positionId reason sellResult = s := by
  have hf : s.openPositions.find? (fun p => p.id == positionId) = none := by
    rw [List.find?_eq_none]
    intro p hp
    simpa using h p hp
  unfold PositionManager.exit
  rw [hf]

/-- Witness for C6: exiting `scenarioPos` and then invoking `exit` a
second time on the same, now closed, id is a no-op. -/
theorem exit_double_invocation_witness :
    PositionManager.exit DEFAULT_RISK_CONFIG
        (PositionManager.exit DEFAULT_RISK_CONFIG scenarioState 1
          ExitReason.stop_loss sellOk) 1 ExitReason.stop_loss sellOk
      = PositionManager.exit DEFAULT_RISK_CONFIG scenarioState 1
          ExitReason.stop_loss sellOk :=
  exit_unknown_id_noop _ _ _ _ _ (by
    norm_num [PositionManager.exit, RiskManager.shouldStopPortfolio,
      scenarioState, scenarioPos, sellOk, DEFAULT_RISK_CONFIG])

/-- C7: when the sell execution fails, `exit` still closes the position:
it is removed from the open set and appended to the closed set with
status closed and exit fields set, booked at the fixed-haircut fallback —
capital is credited `entryAmount * (1 - 0.15)`, realized PnL is
`-0.15 * entryAmount`, and the recorded exit price is the position's
current stop. -/
theorem exit_sell_failure_books_haircut (cfg : RiskConfig) (s : BotState)
    (positionId : ℕ) (reason : ExitReason) (sellResult : SwapResult)
    (p : Position)
    (hfail : sellResult.success = false)
    (hfind : s.openPositions.find? (fun q => q.id == positionId) = some p) :
    (PositionManager.exit cfg s positionId reason sellResult).openPositions
        = s.openPositions.eraseP (fun q => q.id == positionId) ∧
    (PositionManager.exit cfg s positionId reason sellResult).closedPositions
        = s.closedPositions ++
          [{ p with
              status := .closed
              exitPrice := some p.stopLoss
              pnlSol := some (-(15/100) * p.entryAmount) }] ∧
    (PositionManager.exit cfg s positionId reason sellResult).capitalSol
        = s.capitalSol + p.entryAmount * (1 - 15/100) ∧
    (PositionManager.exit cfg s positionId reason sellResult).totalPnlSol
        = s.totalPnlSol - 15/100 * p.entryAmount := by
  unfold PositionManager.exit
  rw [hfind]
  simp only [hfail, Bool.false_eq_true, if_false]
  have hpnl : p.entryAmount * (1 - 15/100) - p.entryAmount
      = -(15/100) * p.entryAmount := by ring
  rw [hpnl]
  split <;> exact ⟨rfl, rfl, by ring, by ring⟩

/-- Witness for C7: exiting `scenarioPos` against a failed sell books the
haircut fallback. -/
theorem exit_sell_failure_books_haircut_witness :
    (PositionManager.exit DEFAULT_RISK_CONFIG scenarioState 1
        ExitReason.manual swapFail).openPositions
      = scenarioState.openPositions.eraseP (fun q => q.id == 1) ∧
    (PositionManager.exit DEFAULT_RISK_CONFIG scenarioState 1
        ExitReason.manual swapFail).closedPositions
      = scenarioState.closedPositions ++
        [{ scenarioPos with
            status := .closed
            exitPrice := some scenarioPos.stopLoss
            pnlSol := some (-(15/100) * scenarioPos.entryAmount) }] ∧
    (PositionManager.exit DEFAULT_RISK_CONFIG scenarioState 1
        ExitReason.manual swapFail).capitalSol
      = scenarioState.capitalSol + scenarioPos.entryAmount * (1 - 15/100) ∧
    (PositionManager.exit DEFAULT_RISK_CONFIG scenarioState 1
        ExitReason.manual swapFail).totalPnlSol
      = scenarioState.totalPnlSol - 15/100 * scenarioPos.entryAmount :=
  exit_sell_failure_books_haircut _ _ _ _ _ _ rfl
    (by simp [scenarioState, scenarioPos])

/-! Helper lemmas for the capital ledger. -/

theorem committed_eraseP (pid : ℕ) :
    ∀ (l : List Position) (p : Position),
      l.find? (fun q => q.id == pid) = some p →
      ((l.eraseP (fun q => q.id == pid)).map Position.entryAmount).sum
        = (l.map Position.entryAmount).sum - p.entryAmount := by
  intro l
  induction l with
  | nil => intro p h; simp at h
  | cons a t ih =>
    intro p h
    by_cases ha : (a.id == pid) = true
    · rw [@List.find?_cons_of_pos Position (fun q => q.id == pid) a t ha] at h
      rw [@List.eraseP_cons_of_pos Position a t (fun q => q.id == pid) ha]
      obtain rfl : a = p := by injection h
      simp
    · rw [@List.find?_cons_of_neg Position (fun q => q.id == pid) a t ha] at h
      rw [@List.eraseP_cons_of_neg Position a t (fun q => q.id == pid) ha]
      simp only [List.map_cons, List.sum_cons, ih p h]
      ring

theorem enter_conserves (cfg : RiskConfig) (s : BotState) (signal : Signal)
    (rug : RugCheckResult) (buyResult : SwapResult) (freshId : ℕ) :
    ((PositionManager.enter cfg s signal rug buyResult freshId).2).capitalSol
      + committedCapital (PositionManager.enter cfg s signal rug buyResult freshId).2
      - ((PositionManager.enter cfg s signal rug buyResult freshId).2).totalPnlSol
    = s.capitalSol + committedCapital s - s.totalPnlSol := by
  unfold PositionManager.enter
  split
  · rfl
  · split
    · rfl
    · dsimp only
      split
      · rfl
      · split
        · rfl
        · unfold committedCapital
          simp only [List.map_append, List.sum_append, List.map_cons,
            List.sum_cons, List.map_nil, List.sum_nil]
          ring

theorem exit_conserves (cfg : RiskConfig) (s : BotState) (pid : ℕ)
    (reason : ExitReason) (sell : SwapResult) :
    (PositionManager.exit cfg s pid reason sell).capitalSol
      + committedCapital (PositionManager.exit cfg s pid reason sell)
      - (PositionManager.exit cfg s pid reason sell).totalPnlSol
    = s.capitalSol + committedCapital s - s.totalPnlSol := by
  unfold PositionManager.exit
  cases hfind : s.openPositions.find? (fun p => p.id == pid) with
  | none => rfl
  | some p =>
    have hc := committed_eraseP pid s.openPositions p hfind
    unfold committedCapital
    dsimp only
    split <;> split <;> dsimp only <;> rw [hc] <;> ring

/-- C8 (amended): for every ledger state reachable from the fresh initial
state by `enter` and `exit` transitions, available capital plus the
committed capital of open positions MINUS cumulative realized PnL equals
the configured initial capital — exactly, on both the real-proceeds and
the haircut-fallback exit paths. -/
theorem capital_conservation (cfg : RiskConfig) (c0 : ℚ) (s : BotState)
    (h : Reachable cfg c0 s) :
    s.capitalSol + committedCapital s - s.totalPnlSol = c0 := by
  induction h with
  | init => simp [PositionManager.initState, committedCapital]
  | enterStep s signal rug buyResult freshId hr ih =>
    rw [enter_conserves]; exact ih
  | exitStep s pid reason sell hr ih =>
    rw [exit_conserves]; exact ih

/-- Witness for C8 (amended) on the concrete two-transition history:
enter from capital 0.84, then exit with real proceeds 0.2 SOL. -/
theorem capital_conservation_witness :
    (PositionManager.exit DEFAULT_RISK_CONFIG
        (PositionManager.enter DEFAULT_RISK_CONFIG
          (PositionManager.initState (84/100)) sig1 rugSafe buyOk 1).2
        1 ExitReason.manual sellOk).capitalSol
      + committedCapital (PositionManager.exit DEFAULT_RISK_CONFIG
          (PositionManager.enter DEFAULT_RISK_CONFIG
            (PositionManager.initState (84/100)) sig1 rugSafe buyOk 1).2
          1 ExitReason.manual sellOk)
      - (PositionManager.exit DEFAULT_RISK_CONFIG
          (PositionManager.enter DEFAULT_RISK_CONFIG
            (PositionManager.initState (84/100)) sig1 rugSafe buyOk 1).2
          1 ExitReason.manual sellOk).totalPnlSol
    = 84/100 :=
  capital_conservation DEFAULT_RISK_CONFIG (84/100) _
    (Reachable.exitStep _ _ _ _ (Reachable.enterStep _ _ _ _ _ Reachable.init))

/-- C8 counterexample: on the same reachable two-transition history
(entry of 0.084 SOL from capital 0.84, exit with proceeds 0.2 SOL), the
claimed quantity — capital plus committed capital PLUS cumulative
realized PnL — is 1.072, not the initial 0.84: it is not conserved by an
exit whose realized PnL is nonzero. -/
theorem capital_plus_pnl_not_conserved :
    Reachable DEFAULT_RISK_CONFIG (84/100)
      (PositionManager.exit DEFAULT_RISK_CONFIG
        (PositionManager.enter DEFAULT_RISK_CONFIG
          (PositionManager.initState (84/100)) sig1 rugSafe buyOk 1).2
        1 ExitReason.manual sellOk) ∧
    ¬ ((PositionManager.exit DEFAULT_RISK_CONFIG
          (PositionManager.enter DEFAULT_RISK_CONFIG
            (PositionManager.initState (84/100)) sig1 rugSafe buyOk 1).2
          1 ExitReason.manual sellOk).capitalSol
        + committedCapital (PositionManager.exit DEFAULT_RISK_CONFIG
            (PositionManager.enter DEFAULT_RISK_CONFIG
              (PositionManager.initState (84/100)) sig1 rugSafe buyOk 1).2
            1 ExitReason.manual sellOk)
        + (PositionManager.exit DEFAULT_RISK_CONFIG
            (PositionManager.enter DEFAULT_RISK_CONFIG
              (PositionManager.initState (84/100)) sig1 rugSafe buyOk 1).2
            1 ExitReason.manual sellOk).totalPnlSol
      = 84/100) := by
  constructor
  · exact Reachable.exitStep _ _ _ _ (Reachable.enterStep _ _ _ _ _ Reachable.init)
  · norm_num [PositionManager.exit, PositionManager.enter,
      PositionManager.initState, RiskManager.canEnter,
      RiskManager.calcPositionSize, RiskManager.calcStopLoss,
      RiskManager.calcTakeProfit, RiskManager.shouldStopPortfolio,
      committedCapital, DEFAULT_RISK_CONFIG, sig1, rugSafe, buyOk, sellOk,
      round_eq]

/-- C9 (amended): the portfolio halt flag is sticky — no `enter` or
`exit` transition ever clears it — and while it is set `canEnter` denies
every new entry; but, contrary to the claim, the periodic monitoring
callback returns immediately on a halted state, so already-open positions
are no longer monitored (and hence not exited) once the halt has fired. -/
theorem halt_sticky_and_denies_entry (cfg : RiskConfig) (s : BotState)
    (h : s.isStopped = true) :
    (∀ (signal : Signal) (rug : RugCheckResult) (buyResult : SwapResult)
        (freshId : ℕ),
      ((PositionManager.enter cfg s signal rug buyResult freshId).2).isStopped
        = true) ∧
    (∀ (pid : ℕ) (reason : ExitReason) (sell : SwapResult),
      (PositionManager.exit cfg s pid reason sell).isStopped = true) ∧
    (RiskManager.canEnter cfg s).allowed = false ∧
    (∀ (price : ℕ → Option ℚ) (sell : ℕ → SwapResult),
      monitorTick cfg s price sell = s) := by
  have hc : (RiskManager.canEnter cfg s).allowed = false := by
    simp [RiskManager.canEnter, h]
  refine ⟨?_, ?_, hc, ?_⟩
  · intro signal rug buyResult freshId
    simp [PositionManager.enter, hc, h]
  · intro pid reason sell
    unfold PositionManager.exit
    cases hfind : s.openPositions.find? (fun p => p.id == pid) with
    | none => exact h
    | some p =>
      dsimp only
      split <;> split
      · rfl
      · exact h
      · rfl
      · exact h
  · intro price sell
    simp [monitorTick, h]

/-- Witness for C9 (amended) at the halted scenario ledger. -/
theorem halt_sticky_and_denies_entry_witness :
    (∀ (signal : Signal) (rug : RugCheckResult) (buyResult : SwapResult)
        (freshId : ℕ),
      ((PositionManager.enter DEFAULT_RISK_CONFIG haltedScenarioState signal
          rug buyResult freshId).2).isStopped = true) ∧
    (∀ (pid : ℕ) (reason : ExitReason) (sell : SwapResult),
      (PositionManager.exit DEFAULT_RISK_CONFIG haltedScenarioState pid
          reason sell).isStopped = true) ∧
    (RiskManager.canEnter DEFAULT_RISK_CONFIG haltedScenarioState).allowed
      = false ∧
    (∀ (price : ℕ → Option ℚ) (sell : ℕ → SwapResult),
      monitorTick DEFAULT_RISK_CONFIG haltedScenarioState price sell
        = haltedScenarioState) :=
  halt_sticky_and_denies_entry DEFAULT_RISK_CONFIG haltedScenarioState rfl

/-- C9 counterexample: a halted ledger holding one open position whose
current price (0.50) has crossed its stop (0.85).  One firing of the
monitor timer leaves the state untouched — the position is not exited —
although running the monitoring body itself would have closed it.
Monitoring does not continue over open positions after the halt. -/
theorem halted_monitorTick_skips_open_positions :
    monitorTick DEFAULT_RISK_CONFIG haltedScenarioState
        (fun _ => some (1/2)) (fun _ => sellOk)
      = haltedScenarioState ∧
    haltedScenarioState.isStopped = true ∧
    haltedScenarioState.openPositions = [scenarioPos] ∧
    RiskManager.checkExit scenarioPos (1/2) = .stop_loss ∧
    (PositionManager.monitorPositions DEFAULT_RISK_CONFIG haltedScenarioState
        (fun _ => some (1/2)) (fun _ => sellOk)).openPositions = [] := by
  refine ⟨rfl, rfl, rfl, ?_, ?_⟩
  · norm_num [RiskManager.checkExit, scenarioPos]
  · norm_num [PositionManager.monitorPositions, PositionManager.monitorStep,
      PositionManager.applyTrailingStop, PositionManager.exit,
      RiskManager.updateTrailingStop, RiskManager.checkExit,
      RiskManager.shouldStopPortfolio, haltedScenarioState, scenarioState,
      scenarioPos, sellOk, DEFAULT_RISK_CONFIG]

/-- C10 (amended): when the safety screener call fails with an error,
`check` does not abort the entry — it returns an affirmative verdict
(`safe = true`, sentinel score -1), and with the remaining gates passing
the entry proceeds and a position is opened. -/
theorem rugcheck_error_passes_entry (cfg : RiskConfig) (s : BotState)
    (signal : Signal) (buyResult : SwapResult) (freshId : ℕ)
    (hallow : (RiskManager.canEnter cfg s).allowed = true)
    (hsize : ¬ RiskManager.calcPositionSize cfg s.capitalSol < 1/1000)
    (hbuy : buyResult.success = true) :
    (rugCheck none).safe = true ∧
    ((PositionManager.enter cfg s signal (rugCheck none) buyResult
        freshId).1).isSome = true := by
  refine ⟨rfl, ?_⟩
  have hsize1 : ¬ RiskManager.calcPositionSize cfg s.capitalSol
      < ((1000 : ℚ))⁻¹ := by rwa [one_div] at hsize
  unfold PositionManager.enter
  simp [hallow, hsize1, hbuy, rugCheck]

/-- Witness for C10 (amended) on the fresh default ledger with a
successful buy. -/
theorem rugcheck_error_passes_entry_witness :
    (rugCheck none).safe = true ∧
    ((PositionManager.enter DEFAULT_RISK_CONFIG
        (PositionManager.initState (84/100)) sig1 (rugCheck none) buyOk
        1).1).isSome = true :=
  rugcheck_error_passes_entry DEFAULT_RISK_CONFIG
    (PositionManager.initState (84/100)) sig1 buyOk 1
    (by norm_num [RiskManager.canEnter, PositionManager.initState,
      DEFAULT_RISK_CONFIG])
    (by norm_num [RiskManager.calcPositionSize, PositionManager.initState,
      DEFAULT_RISK_CONFIG, round_eq])
    rfl

/-- C10 counterexample: the screener being unavailable at entry (its API
call fails) does not abort the attempt: the catch branch returns
`safe = true` with sentinel score -1, and on the fresh default ledger the
entry goes through — a position is opened. -/
theorem rugcheck_error_opens_position :
    (rugCheck none).safe = true ∧
    (rugCheck none).score = -1 ∧
    ((PositionManager.enter DEFAULT_RISK_CONFIG
        (PositionManager.initState (84/100)) sig1 (rugCheck none) buyOk
        1).1).isSome = true ∧
    ((PositionManager.enter DEFAULT_RISK_CONFIG
        (PositionManager.initState (84/100)) sig1 (rugCheck none) buyOk
        1).2).openPositions.length = 1 := by
  refine ⟨rfl, rfl, ?_, ?_⟩ <;>
    norm_num [PositionManager.enter, PositionManager.initState,
      RiskManager.canEnter, RiskManager.calcPositionSize, rugCheck,
      DEFAULT_RISK_CONFIG, buyOk, sig1, round_eq]

/-! Helper lemmas for the monitoring step (claim C3). -/

theorem mem_eraseP_id_ne (pid : ℕ) :
    ∀ l : List Position, (l.map Position.id).Nodup →
      ∀ q ∈ l.eraseP (fun r => r.id == pid), q.id = pid → False := by
  intro l
  induction l with
  | nil => intro _ q hq; simp at hq
  | cons a t ih =>
    intro hnd q hq hqid
    rw [List.map_cons, List.nodup_cons] at hnd
    by_cases ha : (a.id == pid) = true
    · rw [@List.eraseP_cons_of_pos Position a t (fun r => r.id == pid) ha] at hq
      have ha2 : a.id = pid := by simpa using ha
      exact hnd.1 (by rw [ha2, ← hqid]; exact List.mem_map_of_mem _ hq)
    · rw [@List.eraseP_cons_of_neg Position a t (fun r => r.id == pid) ha] at hq
      rcases List.mem_cons.mp hq with rfl | hq2
      · exact ha (by simpa using hqid)
      · exact ih hnd.2 q hq2 hqid

theorem mem_applyTrailingStop_eq (cfg : RiskConfig) (c : ℚ) (pid : ℕ)
    (l : List Position) (hnd : (l.map Position.id).Nodup) (p : Position)
    (hp : p ∈ l) (hpid : p.id = pid) :
    ∀ q ∈ l.map (fun r =>
        if r.id == pid then (RiskManager.updateTrailingStop cfg r c).2 else r),
      q.id = pid → q = (RiskManager.updateTrailingStop cfg p c).2 := by
  intro q hq hqid
  rcases List.mem_map.mp hq with ⟨r, hr, hrq⟩
  by_cases hrid : (r.id == pid) = true
  · rw [if_pos hrid] at hrq
    have hr2 : r.id = pid := by simpa using hrid
    have hrp : r = p :=
      List.inj_on_of_nodup_map hnd hr hp (by rw [hr2, hpid])
    rw [← hrq, hrp]
  · rw [if_neg hrid] at hrq
    exfalso
    apply hrid
    rw [hrq]
    simpa using hqid

theorem find?_applyTrailingStop (cfg : RiskConfig) (c : ℚ) (pid : ℕ) :
    ∀ l : List Position, (l.map Position.id).Nodup →
      ∀ p ∈ l, p.id = pid →
      (l.map (fun r =>
          if r.id == pid then (RiskManager.updateTrailingStop cfg r c).2
          else r)).find? (fun r => r.id == pid)
        = some (RiskManager.updateTrailingStop cfg p c).2 := by
  intro l
  induction l with
  | nil => intro _ p hp; simp at hp
  | cons a t ih =>
    intro hnd p hp hpid
    rw [List.map_cons, List.nodup_cons] at hnd
    rcases List.mem_cons.mp hp with rfl | hpt
    · have ha : (p.id == pid) = true := by simpa using hpid
      rw [List.map_cons, if_pos ha]
      exact List.find?_cons_of_pos _
        (by simp [updateTrailingStop_id, hpid])
    · have hane : ¬ (a.id == pid) = true := by
        intro ha
        have ha2 : a.id = pid := by simpa using ha
        exact hnd.1 (by rw [ha2, ← hpid]; exact List.mem_map_of_mem _ hpt)
      rw [List.map_cons, if_neg hane]
      rw [@List.find?_cons_of_neg Position (fun r => r.id == pid) a _ hane]
      exact ih hnd.2 p hpt hpid

theorem nodup_map_applyTrailingStop (cfg : RiskConfig) (c : ℚ) (pid : ℕ)
    (l : List Position) (hnd : (l.map Position.id).Nodup) :
    ((l.map (fun r =>
        if r.id == pid then (RiskManager.updateTrailingStop cfg r c).2
        else r)).map Position.id).Nodup := by
  rw [List.map_map]
  have hcomp : (Position.id ∘ fun r =>
      if r.id == pid then (RiskManager.updateTrailingStop cfg r c).2 else r)
      = Position.id := by
    funext r
    by_cases h : (r.id == pid) = true <;>
      simp [Function.comp, h, updateTrailingStop_id]
  rw [hcomp]
  exact hnd

theorem exit_openPositions_eraseP (cfg : RiskConfig) (s : BotState)
    (pid : ℕ) (reason : ExitReason) (sell : SwapResult) (p : Position)
    (hfind : s.openPositions.find? (fun q => q.id == pid) = some p) :
    (PositionManager.exit cfg s pid reason sell).openPositions
      = s.openPositions.eraseP (fun q => q.id == pid) := by
  unfold PositionManager.exit
  rw [hfind]
  dsimp only
  split <;> split <;> rfl

theorem checkExit_of_tp_le (p : Position) (c : ℚ) (h : p.takeProfit ≤ c) :
    RiskManager.checkExit p c = .take_profit := by
  unfold RiskManager.checkExit
  rw [if_pos h]

theorem updateTrailingStop_cross_implies_tp_le (p : Position) (c : ℚ)
    (htp : p.takeProfit
      = RiskManager.calcTakeProfit DEFAULT_RISK_CONFIG p.entryPrice)
    (hpos : 0 < p.entryPrice)
    (hlt : p.stopLoss < p.takeProfit) :
    ((RiskManager.updateTrailingStop DEFAULT_RISK_CONFIG p c).2.stopLoss
      < (RiskManager.updateTrailingStop DEFAULT_RISK_CONFIG p c).2.takeProfit)
    ∨ p.takeProfit ≤ c := by
  unfold RiskManager.updateTrailingStop
  split
  · exact Or.inl hlt
  · dsimp only
    split
    · by_cases hcase :
        max (c * (1 - DEFAULT_RISK_CONFIG.stopLossPct))
            (p.entryPrice * (1 - DEFAULT_RISK_CONFIG.stopLossPct))
          < p.takeProfit
      · exact Or.inl hcase
      · right
        push_neg at hcase
        rw [htp] at hcase ⊢
        unfold RiskManager.calcTakeProfit at hcase ⊢
        simp only [DEFAULT_RISK_CONFIG] at hcase ⊢
        rcases le_max_iff.mp hcase with hc1 | hc2
        · have hc0 : 0 < c := by nlinarith
          nlinarith
        · exfalso
          nlinarith
    · exact Or.inl hlt

/-- C3 (amended): for the default configuration (stop fraction 0.15,
target fraction 0.30), after a complete monitoring step — trailing-stop
update, exit check, and exit when signalled — every position that is
still open satisfies `stopLoss < takeProfit`, provided it did before the
step: whenever the update pushes the stop to or past the target, the
price has necessarily crossed the target too, so the same step closes
the position.  (The transient state between the update and the exit,
which the program persists, can violate the bound — see the
counterexample.) -/
theorem monitorStep_keeps_stop_below_takeProfit (s : BotState)
    (p : Position) (priceOpt : Option ℚ) (sell : SwapResult)
    (hnd : (s.openPositions.map Position.id).Nodup)
    (hmem : p ∈ s.openPositions)
    (htp : p.takeProfit
      = RiskManager.calcTakeProfit DEFAULT_RISK_CONFIG p.entryPrice)
    (hpos : 0 < p.entryPrice)
    (hlt : p.stopLoss < p.takeProfit) :
    ∀ q ∈ (PositionManager.monitorStep DEFAULT_RISK_CONFIG s p.id priceOpt
        sell).openPositions, q.id = p.id → q.stopLoss < q.takeProfit := by
  cases priceOpt with
  | none =>
    intro q hq hqid
    have hqp : q = p := List.inj_on_of_nodup_map hnd hq hmem hqid
    rw [hqp]
    exact hlt
  | some c =>
    intro q hq hqid
    unfold PositionManager.monitorStep PositionManager.applyTrailingStop at hq
    dsimp only at hq
    rw [find?_applyTrailingStop DEFAULT_RISK_CONFIG c p.id s.openPositions
      hnd p hmem rfl] at hq
    dsimp only at hq
    rcases updateTrailingStop_cross_implies_tp_le p c htp hpos hlt with hgood | hcross
    · rcases hstep : RiskManager.checkExit
          (RiskManager.updateTrailingStop DEFAULT_RISK_CONFIG p c).2 c with
        _ | _ | _ <;> rw [hstep] at hq
      · exfalso
        rw [exit_openPositions_eraseP _ _ _ _ _ _
          (find?_applyTrailingStop DEFAULT_RISK_CONFIG c p.id s.openPositions
            hnd p hmem rfl)] at hq
        exact mem_eraseP_id_ne p.id _
          (nodup_map_applyTrailingStop DEFAULT_RISK_CONFIG c p.id
            s.openPositions hnd) q hq hqid
      · exfalso
        rw [exit_openPositions_eraseP _ _ _ _ _ _
          (find?_applyTrailingStop DEFAULT_RISK_CONFIG c p.id s.openPositions
            hnd p hmem rfl)] at hq
        exact mem_eraseP_id_ne p.id _
          (nodup_map_applyTrailingStop DEFAULT_RISK_CONFIG c p.id
            s.openPositions hnd) q hq hqid
      · have hq2 := mem_applyTrailingStop_eq DEFAULT_RISK_CONFIG c p.id
          s.openPositions hnd p hmem rfl q hq hqid
        rw [hq2]
        exact hgood
    · have hstep : RiskManager.checkExit
          (RiskManager.updateTrailingStop DEFAULT_RISK_CONFIG p c).2 c
          = .take_profit :=
        checkExit_of_tp_le _ _ (by
          rw [updateTrailingStop_takeProfit]; exact hcross)
      rw [hstep] at hq
      exfalso
      rw [exit_openPositions_eraseP _ _ _ _ _ _
        (find?_applyTrailingStop DEFAULT_RISK_CONFIG c p.id s.openPositions
          hnd p hmem rfl)] at hq
      exact mem_eraseP_id_ne p.id _
        (nodup_map_applyTrailingStop DEFAULT_RISK_CONFIG c p.id
          s.openPositions hnd) q hq hqid

/-- Witness for C3 (amended): a complete monitoring step of the scenario
position at price 0.90 (no ratchet, no exit signal) keeps it open with
its stop below its target. -/
theorem monitorStep_keeps_stop_below_takeProfit_witness :
    scenarioPos.stopLoss < scenarioPos.takeProfit :=
  monitorStep_keeps_stop_below_takeProfit scenarioState scenarioPos
    (some (9/10)) sellOk
    (by simp [scenarioState])
    (by simp [scenarioState])
    (by norm_num [scenarioPos, RiskManager.calcTakeProfit,
      DEFAULT_RISK_CONFIG])
    (by norm_num [scenarioPos])
    (by norm_num [scenarioPos])
    scenarioPos
    (by norm_num [PositionManager.monitorStep,
      PositionManager.applyTrailingStop, RiskManager.updateTrailingStop,
      RiskManager.checkExit, scenarioState, scenarioPos,
      DEFAULT_RISK_CONFIG])
    rfl

/-- C3 counterexample: on the spec scenario position (stop 0.85, target
1.30, both satisfying the claimed invariant), the trailing-stop update of
a monitoring step at price 2.00 sets the stop to 1.70, at or above the
take-profit, while the position is still in the open set — this is
exactly the state `monitorPositions` persists right after the update,
before the exit that follows. -/
theorem trailingStop_can_cross_takeProfit :
    (PositionManager.applyTrailingStop DEFAULT_RISK_CONFIG scenarioState 1
        2).openPositions
      = [{ scenarioPos with highestPrice := 2, stopLoss := 17/10 }] ∧
    ({ scenarioPos with highestPrice := 2, stopLoss := 17/10 }
        : Position).status = .opened ∧
    ({ scenarioPos with highestPrice := 2, stopLoss := 17/10 }
        : Position).takeProfit
      ≤ ({ scenarioPos with highestPrice := 2, stopLoss := 17/10 }
        : Position).stopLoss ∧
    scenarioPos.stopLoss < scenarioPos.takeProfit := by
  refine ⟨?_, rfl, ?_, ?_⟩
  · norm_num [PositionManager.applyTrailingStop,
      RiskManager.updateTrailingStop, scenarioState, scenarioPos,
      DEFAULT_RISK_CONFIG]
  · norm_num [scenarioPos]
  · norm_num [scenarioPos]

end TradingBot
